import Mathlib

/-!
Verification of the Flask number-guessing game in `src/game/game_tebak.py`.

The per-player session record (keys `secret`, `attempts`, `history`,
`finished`) becomes the structure `GameSession`.  The three route handlers
`index`, `guess` and `reset` become pure functions that take the current
session (`Option GameSession`, `none` when the session holds no game yet)
together with the value the next `random.randint(MIN_NUM, MAX_NUM)` call
would return, and produce the new session plus the HTTP response.
`request.form.get('guess')` followed by `int(...)` is modelled as an
`Option Int` input: `none` when `int` raises `ValueError`, `some g` when
parsing yields `g`.  The rendered template arguments are mirrored by the
`Render` structure and the Indonesian message strings by the `Msg`
inductive, keeping every numeric component the code interpolates.
-/

/-- Session record: keys `secret`, `attempts`, `history`, `finished`. -/
structure GameSession where
  secret : Int
  attempts : Nat
  history : List Int
  finished : Bool
  deriving Repr, DecidableEq

/-- `MIN_NUM = 1` in the source configuration. -/
def MIN_NUM : Int := 1

/-- `MAX_NUM = 100` in the source configuration. -/
def MAX_NUM : Int := 100

/-- `MAX_ATTEMPTS = 10` in the source configuration. -/
def MAX_ATTEMPTS : Nat := 10

/-- `init_game()`: store a fresh secret `r` (the value returned by
`random.randint(MIN_NUM, MAX_NUM)`), zero attempts, empty history,
`finished = False`. -/
def init_game (r : Int) : GameSession :=
  { secret := r, attempts := 0, history := [], finished := false }

/-- The messages the handlers build (`message` template argument);
each constructor keeps the numbers the f-string interpolates. -/
inductive Msg where
  /-- `'Masukkan angka valid.'` -/
  | invalid : Msg
  /-- `f'Angka harus antara {MIN_NUM} dan {MAX_NUM}.'` -/
  | outOfRange : Msg
  /-- `f'Selamat! Tebakan Anda benar dalam {attempts} percobaan.'` -/
  | correct (attempts : Nat) : Msg
  /-- `'Maaf, Anda kehabisan tebakan. Game berakhir.'` -/
  | exhausted : Msg
  /-- `'Terlalu kecil.'` / `'Terlalu besar.'` with
  `f'Sisa tebakan: {remaining}.'`; `tooLow` is the test `g < secret`. -/
  | hint (tooLow : Bool) (remaining : Int) : Msg
  deriving Repr, DecidableEq

/-- The `alert_type` template argument. -/
inductive Alert where
  | info | warning | successAlert | danger
  deriving Repr, DecidableEq

/-- Arguments of one `render_template_string(TEMPLATE, ...)` call. -/
structure Render where
  remaining : Int
  message : Option Msg
  alert : Alert
  finished : Bool
  secret : Int
  history : List Int
  deriving Repr, DecidableEq

/-- A handler's HTTP response: a redirect to `/` or a rendered template. -/
inductive Response where
  | redirectIndex : Response
  | render (r : Render) : Response
  deriving Repr, DecidableEq

/-- The message of a response, when it renders one. -/
def Response.msg? : Response → Option Msg
  | .redirectIndex => none
  | .render r => r.message

/-- The `remaining` argument of a response, when it renders. -/
def Response.remaining? : Response → Option Int
  | .redirectIndex => none
  | .render r => some r.remaining

/-- Body of the `/guess` handler after the session-existence check, acting
on the existing game `s` with parsed form input `input`. -/
def guessStep (s : GameSession) (input : Option Int) : GameSession × Response :=
  if s.finished then
    (s, .redirectIndex)
  else
    match input with
    | none =>
        (s, .render { remaining := (MAX_ATTEMPTS : Int) - s.attempts,
                      message := some .invalid, alert := .warning,
                      finished := false, secret := s.secret, history := s.history })
    | some g =>
        if g < MIN_NUM ∨ g > MAX_NUM then
          (s, .render { remaining := (MAX_ATTEMPTS : Int) - s.attempts,
                        message := some .outOfRange, alert := .warning,
                        finished := false, secret := s.secret, history := s.history })
        else
          let s' : GameSession :=
            { s with attempts := s.attempts + 1, history := s.history ++ [g] }
          if g = s.secret then
            ({ s' with finished := true },
             .render { remaining := (MAX_ATTEMPTS : Int) - s'.attempts,
                       message := some (.correct s'.attempts), alert := .successAlert,
                       finished := true, secret := s.secret, history := s'.history })
          else if s'.attempts ≥ MAX_ATTEMPTS then
            ({ s' with finished := true },
             .render { remaining := 0,
                       message := some .exhausted, alert := .danger,
                       finished := true, secret := s.secret, history := s'.history })
          else
            (s',
             .render { remaining := (MAX_ATTEMPTS : Int) - s'.attempts,
                       message := some (.hint (decide (g < s.secret))
                                              ((MAX_ATTEMPTS : Int) - s'.attempts)),
                       alert := .info,
                       finished := false, secret := s.secret, history := s'.history })

/-- The `/guess` route: `init_game` when no game is in the session (drawing
`r`), then `guessStep`. -/
def guess (st : Option GameSession) (r : Int) (input : Option Int) :
    GameSession × Response :=
  let s := match st with
    | none => init_game r
    | some s => s
  guessStep s input

/-- The `/` route `index`: `init_game` when no game is in the session
(drawing `r`), then render the current state with no message. -/
def index (st : Option GameSession) (r : Int) : GameSession × Response :=
  let s := match st with
    | none => init_game r
    | some s => s
  (s, .render { remaining := (MAX_ATTEMPTS : Int) - s.attempts,
                message := none, alert := .info,
                finished := s.finished, secret := s.secret, history := s.history })

/-- The `/reset` route: `init_game()` (drawing `r`) then redirect to `/`;
the prior session content is discarded unread. -/
def reset (_st : Option GameSession) (r : Int) : GameSession × Response :=
  (init_game r, .redirectIndex)

/-- One client action against an existing game, carrying the values any
`random.randint` call inside it would draw. -/
inductive Op where
  | viewOp : Op
  | guessOp (input : Option Int) : Op
  | resetOp (r : Int) : Op
  deriving Repr, DecidableEq

/-- Apply one action to an existing game (the session, once populated,
always holds a game, so the `none` branches of the routes never fire). -/
def applyOp (s : GameSession) : Op → GameSession
  | .viewOp => (index (some s) 0).1
  | .guessOp input => (guessStep s input).1
  | .resetOp r => init_game r

/-- States reached from `s` by a sequence of actions. -/
def runOps (s : GameSession) (ops : List Op) : GameSession :=
  ops.foldl applyOp s

/-- Fold `guessStep` over a list of parsed guesses, keeping only the state. -/
def runGuesses (s : GameSession) (gs : List Int) : GameSession :=
  gs.foldl (fun t g => (guessStep t (some g)).1) s

/-- Fold `guessStep` over a list of parsed guesses, collecting every
response alongside the final state. -/
def runResponses (s : GameSession) (gs : List Int) : GameSession × List Response :=
  match gs with
  | [] => (s, [])
  | g :: rest =>
      let p := guessStep s (some g)
      let q := runResponses p.1 rest
      (q.1, p.2 :: q.2)

/-! ### Helper lemmas about single steps -/

lemma guessStep_of_finished (s : GameSession) (input : Option Int)
    (hf : s.finished = true) : guessStep s input = (s, .redirectIndex) := by
  simp [guessStep, hf]

lemma guessStep_secret_eq (s : GameSession) (input : Option Int) :
    (guessStep s input).1.secret = s.secret := by
  unfold guessStep
  split
  · rfl
  · cases input with
    | none => rfl
    | some g =>
      simp only
      split
      · rfl
      · split
        · rfl
        · split
          · rfl
          · rfl

lemma guessStep_hint_eq (s : GameSession) (g : Int) (hf : s.finished = false)
    (h1 : MIN_NUM ≤ g) (h2 : g ≤ MAX_NUM) (hne : g ≠ s.secret)
    (hlt : s.attempts + 1 < MAX_ATTEMPTS) :
    guessStep s (some g) =
      ({ s with attempts := s.attempts + 1, history := s.history ++ [g] },
       .render { remaining := (MAX_ATTEMPTS : Int) - (s.attempts + 1),
                 message := some (.hint (decide (g < s.secret))
                                        ((MAX_ATTEMPTS : Int) - (s.attempts + 1))),
                 alert := .info, finished := false,
                 secret := s.secret, history := s.history ++ [g] }) := by
  have hr : ¬(g < MIN_NUM ∨ g > MAX_NUM) := by
    simp only [MIN_NUM, MAX_NUM] at *
    omega
  have hge : ¬(s.attempts + 1 ≥ MAX_ATTEMPTS) := by omega
  simp [guessStep, hf, hr, hne, hge]

lemma guessStep_exhaust_eq (s : GameSession) (g : Int) (hf : s.finished = false)
    (h1 : MIN_NUM ≤ g) (h2 : g ≤ MAX_NUM) (hne : g ≠ s.secret)
    (hge : s.attempts + 1 ≥ MAX_ATTEMPTS) :
    guessStep s (some g) =
      ({ s with attempts := s.attempts + 1, history := s.history ++ [g],
                finished := true },
       .render { remaining := 0, message := some .exhausted, alert := .danger,
                 finished := true, secret := s.secret,
                 history := s.history ++ [g] }) := by
  have hr : ¬(g < MIN_NUM ∨ g > MAX_NUM) := by
    simp only [MIN_NUM, MAX_NUM] at *
    omega
  simp [guessStep, hf, hr, hne, hge]

lemma guessStep_invalid_eq (s : GameSession) (hf : s.finished = false) :
    guessStep s none =
      (s, .render { remaining := (MAX_ATTEMPTS : Int) - s.attempts,
                    message := some .invalid, alert := .warning,
                    finished := false, secret := s.secret,
                    history := s.history }) := by
  simp [guessStep, hf]

lemma guessStep_range_eq (s : GameSession) (g : Int) (hf : s.finished = false)
    (hr : g < MIN_NUM ∨ g > MAX_NUM) :
    guessStep s (some g) =
      (s, .render { remaining := (MAX_ATTEMPTS : Int) - s.attempts,
                    message := some .outOfRange, alert := .warning,
                    finished := false, secret := s.secret,
                    history := s.history }) := by
  simp [guessStep, hf, hr]

lemma runResponses_length (s : GameSession) (gs : List Int) :
    (runResponses s gs).2.length = gs.length := by
  induction gs generalizing s with
  | nil => rfl
  | cons g rest ih => simp [runResponses, ih]

/-! ### Claim theorems -/

/-- C1: for every unfinished session, guessing the secret (which lies in
range) sets `finished` to `true` and returns the success message reporting
the incremented attempt count, whatever the attempt count was — the
equality test comes before the exhaustion test. -/
theorem guess_secret_wins (s : GameSession) (hf : s.finished = false)
    (h1 : MIN_NUM ≤ s.secret) (h2 : s.secret ≤ MAX_NUM) :
    (guessStep s (some s.secret)).1.finished = true ∧
    (guessStep s (some s.secret)).2.msg? = some (.correct (s.attempts + 1)) := by
  have hr : ¬(s.secret < MIN_NUM ∨ s.secret > MAX_NUM) := by
    simp only [MIN_NUM, MAX_NUM] at *
    omega
  simp [guessStep, hf, hr, Response.msg?]

/-- C1 witness: guessing secret 42 on the 10th attempt (9 used) still wins. -/
theorem guess_secret_wins_witness :
    let s : GameSession := ⟨42, 9, [1, 2, 3, 4, 5, 6, 7, 8, 9], false⟩
    s.finished = false ∧ MIN_NUM ≤ s.secret ∧ s.secret ≤ MAX_NUM ∧
    ((guessStep s (some s.secret)).1.finished = true ∧
     (guessStep s (some s.secret)).2.msg? = some (.correct (s.attempts + 1))) :=
  ⟨rfl, by decide, by decide,
   guess_secret_wins ⟨42, 9, [1, 2, 3, 4, 5, 6, 7, 8, 9], false⟩ rfl
     (by decide) (by decide)⟩

/-- C3: for every unfinished session, an unparsable input or a parsed
guess outside `[MIN_NUM, MAX_NUM]` leaves the session record unchanged and
yields a rendered warning. -/
theorem invalid_input_no_mutation (s : GameSession) (input : Option Int)
    (hf : s.finished = false)
    (hbad : input = none ∨ ∃ g, input = some g ∧ (g < MIN_NUM ∨ g > MAX_NUM)) :
    (guessStep s input).1 = s ∧
    ((guessStep s input).2.msg? = some .invalid ∨
     (guessStep s input).2.msg? = some .outOfRange) ∧
    ∃ v, (guessStep s input).2 = .render v ∧ v.alert = .warning := by
  rcases hbad with h | ⟨g, hg, hr⟩
  · subst h
    rw [guessStep_invalid_eq s hf]
    exact ⟨rfl, Or.inl rfl, _, rfl, rfl⟩
  · subst hg
    rw [guessStep_range_eq s g hf hr]
    exact ⟨rfl, Or.inr rfl, _, rfl, rfl⟩

/-- C3 witness: on the session with secret 42 and 3 attempts, the
out-of-range guess 150 mutates nothing and warns. -/
theorem invalid_input_no_mutation_witness :
    let s : GameSession := ⟨42, 3, [10, 70, 30], false⟩
    s.finished = false ∧
    ((some 150 : Option Int) = none ∨
     ∃ g, (some 150 : Option Int) = some g ∧ (g < MIN_NUM ∨ g > MAX_NUM)) ∧
    ((guessStep s (some 150)).1 = s ∧
     ((guessStep s (some 150)).2.msg? = some .invalid ∨
      (guessStep s (some 150)).2.msg? = some .outOfRange) ∧
     ∃ v, (guessStep s (some 150)).2 = .render v ∧ v.alert = .warning) :=
  ⟨rfl, Or.inr ⟨150, rfl, by decide⟩,
   invalid_input_no_mutation ⟨42, 3, [10, 70, 30], false⟩ (some 150) rfl
     (Or.inr ⟨150, rfl, by decide⟩)⟩

/-- C4: for every unfinished session, a valid in-range guess increments
`attempts` by exactly one and appends the guess to `history`. -/
theorem valid_guess_increments (s : GameSession) (g : Int)
    (hf : s.finished = false) (h1 : MIN_NUM ≤ g) (h2 : g ≤ MAX_NUM) :
    (guessStep s (some g)).1.attempts = s.attempts + 1 ∧
    (guessStep s (some g)).1.history = s.history ++ [g] := by
  have hr : ¬(g < MIN_NUM ∨ g > MAX_NUM) := by
    simp only [MIN_NUM, MAX_NUM] at *
    omega
  simp only [guessStep, hf, Bool.false_eq_true, if_false, hr, if_neg,
    not_false_eq_true]
  split
  · exact ⟨rfl, rfl⟩
  · split
    · exact ⟨rfl, rfl⟩
    · exact ⟨rfl, rfl⟩

/-- C4 witness: guessing 70 on the session with secret 42 and one attempt
used gives attempts 2 and history `[10, 70]`. -/
theorem valid_guess_increments_witness :
    let s : GameSession := ⟨42, 1, [10], false⟩
    s.finished = false ∧ MIN_NUM ≤ (70 : Int) ∧ (70 : Int) ≤ MAX_NUM ∧
    ((guessStep s (some 70)).1.attempts = s.attempts + 1 ∧
     (guessStep s (some 70)).1.history = s.history ++ [70]) :=
  ⟨rfl, by decide, by decide,
   valid_guess_increments ⟨42, 1, [10], false⟩ 70 rfl (by decide) (by decide)⟩

/-- C5: for every unfinished session and valid in-range wrong guess that
does not exhaust the attempts, the response is the `Terlalu kecil`
(too-low) hint when the guess is below the secret and the `Terlalu besar`
(too-high) hint when above, carrying the remaining-attempts count, and
`finished` stays `false`. -/
theorem wrong_guess_hint (s : GameSession) (g : Int)
    (hf : s.finished = false) (h1 : MIN_NUM ≤ g) (h2 : g ≤ MAX_NUM)
    (hne : g ≠ s.secret) (hlt : s.attempts + 1 < MAX_ATTEMPTS) :
    (guessStep s (some g)).1.finished = false ∧
    (g < s.secret →
      (guessStep s (some g)).2.msg? =
        some (.hint true ((MAX_ATTEMPTS : Int) - (s.attempts + 1)))) ∧
    (s.secret < g →
      (guessStep s (some g)).2.msg? =
        some (.hint false ((MAX_ATTEMPTS : Int) - (s.attempts + 1)))) := by
  rw [guessStep_hint_eq s g hf h1 h2 hne hlt]
  refine ⟨hf, ?_, ?_⟩
  · intro hlow
    simp [Response.msg?, hlow]
  · intro hhigh
    have : ¬(g < s.secret) := by omega
    simp [Response.msg?, this]

/-- C5 witness: on the fresh session with secret 42, guessing 10 returns
the too-low hint with 9 attempts remaining and the game continues. -/
theorem wrong_guess_hint_witness :
    let s : GameSession := ⟨42, 0, [], false⟩
    s.finished = false ∧ MIN_NUM ≤ (10 : Int) ∧ (10 : Int) ≤ MAX_NUM ∧
    (10 : Int) ≠ s.secret ∧ s.attempts + 1 < MAX_ATTEMPTS ∧
    ((guessStep s (some 10)).1.finished = false ∧
     ((10 : Int) < s.secret →
       (guessStep s (some 10)).2.msg? =
         some (.hint true ((MAX_ATTEMPTS : Int) - (s.attempts + 1)))) ∧
     (s.secret < (10 : Int) →
       (guessStep s (some 10)).2.msg? =
         some (.hint false ((MAX_ATTEMPTS : Int) - (s.attempts + 1))))) :=
  ⟨rfl, by decide, by decide, by decide, by decide,
   wrong_guess_hint ⟨42, 0, [], false⟩ 10 rfl (by decide) (by decide)
     (by decide) (by decide)⟩

/-- C6: for every prior session content, `reset` (with the drawn secret in
`randint`'s range) yields a state whose secret lies in `[MIN_NUM, MAX_NUM]`,
zero attempts, empty history and `finished = false`. -/
theorem reset_starts_fresh (st : Option GameSession) (r : Int)
    (h1 : MIN_NUM ≤ r) (h2 : r ≤ MAX_NUM) :
    MIN_NUM ≤ (reset st r).1.secret ∧ (reset st r).1.secret ≤ MAX_NUM ∧
    (reset st r).1.attempts = 0 ∧ (reset st r).1.history = [] ∧
    (reset st r).1.finished = false :=
  ⟨h1, h2, rfl, rfl, rfl⟩

/-- C6 witness: resetting a finished session with drawn secret 57. -/
theorem reset_starts_fresh_witness :
    MIN_NUM ≤ (57 : Int) ∧ (57 : Int) ≤ MAX_NUM ∧
    (MIN_NUM ≤ (reset (some ⟨42, 10, [1, 2, 3, 4, 5, 6, 7, 8, 9, 11], true⟩ : Option GameSession) 57).1.secret ∧
     (reset (some ⟨42, 10, [1, 2, 3, 4, 5, 6, 7, 8, 9, 11], true⟩ : Option GameSession) 57).1.secret ≤ MAX_NUM ∧
     (reset (some ⟨42, 10, [1, 2, 3, 4, 5, 6, 7, 8, 9, 11], true⟩ : Option GameSession) 57).1.attempts = 0 ∧
     (reset (some ⟨42, 10, [1, 2, 3, 4, 5, 6, 7, 8, 9, 11], true⟩ : Option GameSession) 57).1.history = [] ∧
     (reset (some ⟨42, 10, [1, 2, 3, 4, 5, 6, 7, 8, 9, 11], true⟩ : Option GameSession) 57).1.finished = false) :=
  ⟨by decide, by decide,
   reset_starts_fresh (some ⟨42, 10, [1, 2, 3, 4, 5, 6, 7, 8, 9, 11], true⟩) 57
     (by decide) (by decide)⟩

/-- C7: the `/guess` route never changes the secret of an existing
session, whatever the input (parsed, unparsable, or while finished). -/
theorem guess_preserves_secret (s : GameSession) (r : Int) (input : Option Int) :
    (guess (some s) r input).1.secret = s.secret :=
  guessStep_secret_eq s input

/-- C8: on an existing session, `index` returns the session unchanged and
renders its remaining attempts, history and finished flag with no message;
on an absent session it creates `init_game r`. -/
theorem index_renders_without_mutation (s : GameSession) (r : Int) :
    index (some s) r =
      (s, .render { remaining := (MAX_ATTEMPTS : Int) - s.attempts,
                    message := none, alert := .info, finished := s.finished,
                    secret := s.secret, history := s.history }) ∧
    (index none r).1 = init_game r :=
  ⟨rfl, rfl⟩

/-- C9: once `finished` is `true`, the `/guess` handler redirects to `/`
without touching any field, whatever the raw input. -/
theorem guess_after_finish_noop (s : GameSession) (input : Option Int)
    (hf : s.finished = true) :
    guessStep s input = (s, .redirectIndex) :=
  guessStep_of_finished s input hf

/-- C9 witness: a guess of 7 against a finished session is dropped. -/
theorem guess_after_finish_noop_witness :
    (⟨42, 4, [10, 70, 50, 42], true⟩ : GameSession).finished = true ∧
    guessStep ⟨42, 4, [10, 70, 50, 42], true⟩ (some 7) =
      (⟨42, 4, [10, 70, 50, 42], true⟩, .redirectIndex) :=
  ⟨rfl, guess_after_finish_noop ⟨42, 4, [10, 70, 50, 42], true⟩ (some 7) rfl⟩

/-! ### Exhaustion after ten wrong guesses -/

lemma runResponses_exhaust (gs : List Int) (s : GameSession)
    (hf : s.finished = false)
    (hsum : s.attempts + gs.length = MAX_ATTEMPTS) (hne : gs ≠ [])
    (hv : ∀ g ∈ gs, MIN_NUM ≤ g ∧ g ≤ MAX_NUM ∧ g ≠ s.secret) :
    (runResponses s gs).1.finished = true ∧
    (runResponses s gs).1.attempts = MAX_ATTEMPTS ∧
    (runResponses s gs).2.getLast? =
      some (.render { remaining := 0, message := some .exhausted,
                      alert := .danger, finished := true, secret := s.secret,
                      history := (runResponses s gs).1.history }) := by
  induction gs generalizing s with
  | nil => exact absurd rfl hne
  | cons g rest ih =>
    obtain ⟨hg1, hg2, hgne⟩ := hv g (List.mem_cons_self g rest)
    cases rest with
    | nil =>
      have hge : s.attempts + 1 ≥ MAX_ATTEMPTS := by
        simp at hsum
        omega
      have hstep := guessStep_exhaust_eq s g hf hg1 hg2 hgne hge
      have hatt : s.attempts + 1 = MAX_ATTEMPTS := by
        simp at hsum
        omega
      simp [runResponses, hstep, hatt]
    | cons g2 rest2 =>
      have hlt : s.attempts + 1 < MAX_ATTEMPTS := by
        simp at hsum
        omega
      have hstep := guessStep_hint_eq s g hf hg1 hg2 hgne hlt
      set s1 : GameSession :=
        { s with attempts := s.attempts + 1, history := s.history ++ [g] } with hs1
      have hrec := ih s1 hf (by simp [hs1] at *; omega)
        (by simp)
        (by
          intro x hx
          exact hv x (List.mem_cons_of_mem g hx))
      have hlen : (runResponses s1 (g2 :: rest2)).2.length = (g2 :: rest2).length :=
        runResponses_length s1 (g2 :: rest2)
      obtain ⟨hfin, hatt, hlast⟩ := hrec
      refine ⟨?_, ?_, ?_⟩
      · simpa [runResponses, hstep] using hfin
      · simpa [runResponses, hstep] using hatt
      · have hcons : ∃ b l, (runResponses s1 (g2 :: rest2)).2 = b :: l := by
          cases hq : (runResponses s1 (g2 :: rest2)).2 with
          | nil => simp [hq] at hlen
          | cons b l => exact ⟨b, l, rfl⟩
        obtain ⟨b, l, hbl⟩ := hcons
        show (runResponses s (g :: g2 :: rest2)).2.getLast? = _
        have hexp : (runResponses s (g :: g2 :: rest2)).2 =
            (guessStep s (some g)).2 :: (runResponses s1 (g2 :: rest2)).2 := by
          simp [runResponses, hstep]
        have hstate : (runResponses s (g :: g2 :: rest2)).1 =
            (runResponses s1 (g2 :: rest2)).1 := by
          simp [runResponses, hstep]
        rw [hexp, hbl, List.getLast?_cons_cons, ← hbl, hlast, hstate]

/-- C2: starting from an unfinished session with zero attempts, any run of
exactly `MAX_ATTEMPTS` valid in-range guesses, none equal to the secret,
ends with `finished = true` and its last response is the exhaustion render
with `remaining = 0`. -/
theorem ten_wrong_guesses_exhaust (s : GameSession) (gs : List Int)
    (hf : s.finished = false) (h0 : s.attempts = 0)
    (hlen : gs.length = MAX_ATTEMPTS)
    (hv : ∀ g ∈ gs, MIN_NUM ≤ g ∧ g ≤ MAX_NUM ∧ g ≠ s.secret) :
    (runResponses s gs).1.finished = true ∧
    (runResponses s gs).2.getLast? =
      some (.render { remaining := 0, message := some .exhausted,
                      alert := .danger, finished := true, secret := s.secret,
                      history := (runResponses s gs).1.history }) := by
  have h := runResponses_exhaust gs s hf (by omega)
    (by
      intro h
      rw [h] at hlen
      simp [MAX_ATTEMPTS] at hlen)
    hv
  exact ⟨h.1, h.2.2⟩

/-- C2 witness: ten in-range wrong guesses against secret 42 exhaust the
game. -/
theorem ten_wrong_guesses_exhaust_witness :
    let s : GameSession := ⟨42, 0, [], false⟩
    let gs : List Int := [1, 2, 3, 4, 5, 6, 7, 8, 9, 11]
    s.finished = false ∧ s.attempts = 0 ∧ gs.length = MAX_ATTEMPTS ∧
    (∀ g ∈ gs, MIN_NUM ≤ g ∧ g ≤ MAX_NUM ∧ g ≠ s.secret) ∧
    ((runResponses s gs).1.finished = true ∧
     (runResponses s gs).2.getLast? =
       some (.render { remaining := 0, message := some .exhausted,
                       alert := .danger, finished := true, secret := s.secret,
                       history := (runResponses s gs).1.history })) :=
  ⟨rfl, rfl, by decide, by decide,
   ten_wrong_guesses_exhaust ⟨42, 0, [], false⟩ [1, 2, 3, 4, 5, 6, 7, 8, 9, 11]
     rfl rfl (by decide) (by decide)⟩

/-! ### Attempts bound along every reachable state -/

/-- The attempts invariant: never above `MAX_ATTEMPTS`, and strictly below
it while the game is unfinished. -/
def AttemptsInv (s : GameSession) : Prop :=
  s.attempts ≤ MAX_ATTEMPTS ∧ (s.finished = false → s.attempts < MAX_ATTEMPTS)

lemma attemptsInv_init (r : Int) : AttemptsInv (init_game r) := by
  constructor
  · simp [init_game, MAX_ATTEMPTS]
  · intro _
    simp [init_game, MAX_ATTEMPTS]

lemma attemptsInv_guessStep (s : GameSession) (input : Option Int)
    (h : AttemptsInv s) : AttemptsInv ((guessStep s input).1) := by
  obtain ⟨hle, hlt⟩ := h
  unfold guessStep
  split
  · exact ⟨hle, hlt⟩
  · rename_i hnf
    have hf : s.finished = false := by
      cases hb : s.finished
      · rfl
      · exact absurd (by simp [hb]) hnf
    have hstrict := hlt hf
    cases input with
    | none => exact ⟨hle, hlt⟩
    | some g =>
      simp only
      split
      · exact ⟨hle, hlt⟩
      · split
        · refine ⟨by simp; omega, ?_⟩
          intro hc
          simp at hc
        · split
          · refine ⟨by simp; omega, ?_⟩
            intro hc
            simp at hc
          · rename_i hnot
            simp at hnot
            exact ⟨by simp; omega, fun _ => by simp; omega⟩

lemma attemptsInv_applyOp (s : GameSession) (op : Op)
    (h : AttemptsInv s) : AttemptsInv (applyOp s op) := by
  cases op with
  | viewOp => exact h
  | guessOp input => exact attemptsInv_guessStep s input h
  | resetOp r => exact attemptsInv_init r

lemma attemptsInv_runOps (s : GameSession) (ops : List Op)
    (h : AttemptsInv s) : AttemptsInv (runOps s ops) := by
  induction ops generalizing s with
  | nil => exact h
  | cons op rest ih => exact ih (applyOp s op) (attemptsInv_applyOp s op h)

/-- C10: in every state reachable from a fresh game by any sequence of
view, guess and reset actions, `attempts` never exceeds `MAX_ATTEMPTS`,
and while `finished = false` it stays strictly below `MAX_ATTEMPTS`. -/
theorem reachable_attempts_bounded (r : Int) (ops : List Op) :
    (runOps (init_game r) ops).attempts ≤ MAX_ATTEMPTS ∧
    ((runOps (init_game r) ops).finished = false →
      (runOps (init_game r) ops).attempts < MAX_ATTEMPTS) :=
  attemptsInv_runOps (init_game r) ops (attemptsInv_init r)
